import Mathlib

/-!
Shallow embedding of `script/_installer.py` (wyoming-satellite interactive
installer) together with proofs of the specified properties.

Conventions of the embedding:
* Python strings are `String`; the `str`-mixin enums `SatelliteType` and
  `WakeWordSystem` are represented by their string values (a Python
  `str`-enum member *is* its value string for `==`, hashing and JSON
  serialization), so `Settings` fields hold plain strings.
* Python `dict` (insertion ordered, unique keys) is an association list;
  `dictSet` mirrors `d[k] = v` (update first occurrence in place, else
  append), `dictSetdefault` mirrors `d.setdefault(k, v)`.
* Subprocess interaction is abstracted by an environment function
  (`ExecEnv`) giving each spawned command's outcome; dialog round trips
  are abstracted by the external tool's exit code and stderr payload.
* Fallible Python code (try/except) becomes `Option`/`Except` or an
  explicit error value, exactly following the source's handlers.
-/

namespace Installer

/-- JSON value shapes that the settings serialization
(`json.dump(asdict(settings))`) can produce: null, strings, lists of
strings and string-keyed objects of strings. -/
inductive JVal where
  | null : JVal
  | str : String → JVal
  | list : List String → JVal
  | dict : List (String × String) → JVal
deriving DecidableEq

/-- Python dict assignment `d[k] = v`: replace the value at the first
occurrence of `k`, otherwise append `(k, v)` at the end (insertion
order semantics of Python dicts). -/
def dictSet (l : List (String × String)) (k v : String) : List (String × String) :=
  match l with
  | [] => [(k, v)]
  | (k0, v0) :: rest => if k0 = k then (k, v) :: rest else (k0, v0) :: dictSet rest k v

/-- Python `d.setdefault(k, v)`: insert `(k, v)` only when `k` is absent. -/
def dictSetdefault (l : List (String × String)) (k v : String) : List (String × String) :=
  match l.lookup k with
  | some _ => l
  | none => l ++ [(k, v)]

/-- The `Settings` dataclass of `_installer.py`.  Enum-typed fields hold
their string values (see module conventions); defaults are the dataclass
field defaults (`SatelliteType.ALWAYS_STREAMING = "always"`). -/
structure Settings where
  microphone_device : Option String := none
  sound_device : Option String := none
  feedback_sounds : List String := []
  wake_word_system : Option String := none
  wake_word : List (String × String) := []
  satellite_name : String := "Wyoming Satellite"
  satellite_type : String := "always"
deriving DecidableEq

/-- JSON serialization of an optional string field (`None` becomes null). -/
def optJVal : Option String → JVal
  | none => JVal.null
  | some s => JVal.str s

/-- `Settings.save`: `json.dump(asdict(self))` — the stored record, one
entry per dataclass field in declaration order.  `WakeWordSystem` dict
keys serialize as their string values since the enum is a `str` subclass. -/
def Settings.save (s : Settings) : List (String × JVal) :=
  [("microphone_device", optJVal s.microphone_device),
   ("sound_device", optJVal s.sound_device),
   ("feedback_sounds", JVal.list s.feedback_sounds),
   ("wake_word_system", optJVal s.wake_word_system),
   ("wake_word", JVal.dict s.wake_word),
   ("satellite_name", JVal.str s.satellite_name),
   ("satellite_type", JVal.str s.satellite_type)]

/-- `settings_dict.get(field.name)` with a JSON null treated like an
absent field: the loader only keeps values that are not `None`. -/
def getField (d : List (String × JVal)) (name : String) : Option JVal :=
  match d.lookup name with
  | some JVal.null => none
  | some v => some v
  | none => none

/-- Load an optional-string field: absent means the dataclass default
`None`; a present value must be a string (Python would otherwise build an
ill-typed `Settings`, modeled as failure). -/
def loadOptStr (d : List (String × JVal)) (name : String) : Option (Option String) :=
  match getField d name with
  | none => some none
  | some (JVal.str s) => some (some s)
  | some _ => none

/-- Load a plain string field with its dataclass default. -/
def loadStr (d : List (String × JVal)) (name dflt : String) : Option String :=
  match getField d name with
  | none => some dflt
  | some (JVal.str s) => some s
  | some _ => none

/-- Load a list-of-strings field (default `[]`). -/
def loadList (d : List (String × JVal)) (name : String) : Option (List String) :=
  match getField d name with
  | none => some []
  | some (JVal.list xs) => some xs
  | some _ => none

/-- Load a string-keyed dict field (default empty dict). -/
def loadDict (d : List (String × JVal)) (name : String) : Option (List (String × String)) :=
  match getField d name with
  | none => some []
  | some (JVal.dict kvs) => some kvs
  | some _ => none

/-- `Settings.load`: read the stored record, keeping every present
non-null field and defaulting the rest, then build `Settings(**kwargs)`. -/
def Settings.load (d : List (String × JVal)) : Option Settings := do
  let mic ← loadOptStr d "microphone_device"
  let snd ← loadOptStr d "sound_device"
  let fb ← loadList d "feedback_sounds"
  let wws ← loadOptStr d "wake_word_system"
  let ww ← loadDict d "wake_word"
  let name ← loadStr d "satellite_name" "Wyoming Satellite"
  let typ ← loadStr d "satellite_type" "always"
  pure ⟨mic, snd, fb, wws, ww, name, typ⟩

/-! Device probe (`configure_microphone`, autodetect branch, and
`_record_proc`).  Scores are modeled as rationals; the selection logic
only compares them. -/

/-- The `_RECORD_RMS_MIN` loudness threshold constant. -/
def RECORD_RMS_MIN : ℚ := 30

/-- The selection loop of the autodetect branch of `configure_microphone`:
iterate device results in original candidate order, skip scores below the
threshold, and keep the strictly greatest score seen so far
(`best_rms is None or device_rms > best_rms`). -/
def detectLoop (thr : ℚ) : List (String × ℚ) → Option (String × ℚ) → Option (String × ℚ)
  | [], best => best
  | (d, r) :: rest, best =>
    if r < thr then detectLoop thr rest best
    else
      match best with
      | none => detectLoop thr rest (some (d, r))
      | some (bd, br) =>
        if br < r then detectLoop thr rest (some (d, r))
        else detectLoop thr rest (some (bd, br))

/-- Device selection over the joined probe results, for a given threshold. -/
def detect_best_with (thr : ℚ) (results : List (String × ℚ)) : Option (String × ℚ) :=
  detectLoop thr results none

/-- Device selection exactly as in the source, at threshold `_RECORD_RMS_MIN`. -/
def detect_best (results : List (String × ℚ)) : Option (String × ℚ) :=
  detect_best_with RECORD_RMS_MIN results

/-- Sum of squared 16-bit samples, `sum(x * x for x in audio_array)`. -/
def sumSquares (samples : List ℤ) : ℤ :=
  (samples.map fun x => x * x).sum

/-- One device's probe task `_record_proc`.  The capture outcome is either
a subprocess failure or the list of decoded 16-bit signed samples.  Inside
the `try` block an empty capture makes `1 / len(audio_array)` raise
`ZeroDivisionError`; every exception is caught and scored `0`.  On a
non-empty capture the score is `sqrt(mean(sample^2))`. -/
noncomputable def record_proc (o : Except Unit (List ℤ)) : ℝ :=
  match o with
  | Except.error _ => 0
  | Except.ok samples =>
    if samples.length = 0 then 0
    else Real.sqrt ((1 : ℝ) / (samples.length : ℝ) * ((sumSquares samples : ℤ) : ℝ))

/-! Command runner (`run_with_gauge` and `_run_command`). -/

/-- Outcome of spawning one external command: the spawn itself can fail,
or the process exits with a code and stderr text. -/
inductive CmdOutcome where
  | spawnError : CmdOutcome
  | exited : Int → String → CmdOutcome
deriving DecidableEq

/-- The external world: what happens when a given argument vector is
spawned with a given stdin payload. -/
def ExecEnv := List String → Option String → CmdOutcome

/-- The stdin payload `_run_command` pipes to the spawned process:
the sudo password exactly when the command's first argument is `"sudo"`
and a password was supplied, otherwise nothing. -/
def procInput (command : List String) (sudo_password : Option String) : Option String :=
  if command.head? = some "sudo" ∧ sudo_password ≠ none then sudo_password else none

/-- `_run_command`: spawn the command with `procInput` on stdin and
succeed exactly on exit code 0.  An empty command fails the `assert`
inside the `try` block, and a spawn failure raises — both are caught and
reported as `False`. -/
def run_command (ex : ExecEnv) (command : List String) (sudo_password : Option String) : Bool :=
  match command with
  | [] => false
  | _ :: _ =>
    match ex command (procInput command sudo_password) with
    | CmdOutcome.spawnError => false
    | CmdOutcome.exited code _ => decide (code = 0)

/-- `run_with_gauge`: run the commands strictly in list order, one at a
time, stopping at the first failure.  Returns the overall result together
with the list of commands actually started, in start order (the gauge
ticker animates progress but does not influence control flow and is not
modeled). -/
def run_with_gauge (ex : ExecEnv) (sudo_password : Option String) :
    List (List String) → Bool × List (List String)
  | [] => (true, [])
  | c :: rest =>
    if run_command ex c sudo_password then
      let r := run_with_gauge ex sudo_password rest
      (r.1, c :: r.2)
    else (false, [c])

/-! Wake word handlers (`install_wake_word`, `select_wake_word`). -/

/-- Effects of one `install_wake_word` call: the resulting settings, the
external commands started (via `run_with_gauge`), whether `settings.save`
ran, the msgbox texts shown, and the directories removed by the failure
cleanup (`shutil.rmtree`). -/
structure WWResult where
  settings : Settings
  started : List (List String)
  saved : Bool
  msgs : List String
  removed : List String
deriving DecidableEq

/-- `install_wake_word(settings, wake_word_system)`.  The first two
branches test the `wake_word_system` argument against `"openWakeWord"`
and `"porcupine1"`, but the third branch tests the *stored*
`settings.wake_word_system` against `"snowboy"` — reproduced verbatim
from the source.  Each taken branch clones and sets up the engine when
its directory is missing (removing the directory again on failure), then
assigns `settings.wake_word_system` from the argument, `setdefault`s the
engine's wake word and saves. -/
def install_wake_word (dirExists : String → Bool) (ex : ExecEnv)
    (s : Settings) (wake_word_system : String) : WWResult :=
  if wake_word_system = "openWakeWord" then
    let dir := "local/wyoming-openwakeword"
    if dirExists dir = false then
      let r := run_with_gauge ex none
        [["git", "clone", "https://github.com/rhasspy/wyoming-openwakeword.git", dir],
         [dir ++ "/script/setup"]]
      if r.1 then
        ⟨{ s with wake_word_system := some wake_word_system,
                  wake_word := dictSetdefault s.wake_word "openWakeWord" "ok_nabu" },
         r.2, true, ["openWakeWord installed successfully"], []⟩
      else
        ⟨s, r.2, false,
         ["An error occurred while installing openWakeWord. See local/installer.log for details."],
         [dir]⟩
    else
      ⟨{ s with wake_word_system := some wake_word_system,
                wake_word := dictSetdefault s.wake_word "openWakeWord" "ok_nabu" },
       [], true, [], []⟩
  else if wake_word_system = "porcupine1" then
    let dir := "local/wyoming-porcupine1"
    if dirExists dir = false then
      let r := run_with_gauge ex none
        [["git", "clone", "https://github.com/rhasspy/wyoming-porcupine1.git", dir],
         [dir ++ "/script/setup"]]
      if r.1 then
        ⟨{ s with wake_word_system := some wake_word_system,
                  wake_word := dictSetdefault s.wake_word "porcupine1" "porcupine" },
         r.2, true, ["porcupine1 installed successfully"], []⟩
      else
        ⟨s, r.2, false,
         ["An error occurred while installing porcupine1. See local/installer.log for details."],
         [dir]⟩
    else
      ⟨{ s with wake_word_system := some wake_word_system,
                wake_word := dictSetdefault s.wake_word "porcupine1" "porcupine" },
       [], true, [], []⟩
  else if s.wake_word_system = some "snowboy" then
    let dir := "local/wyoming-snowboy"
    if dirExists dir = false then
      let r := run_with_gauge ex none
        [["git", "clone", "https://github.com/rhasspy/wyoming-snowboy.git", dir],
         [dir ++ "/script/setup"]]
      if r.1 then
        ⟨{ s with wake_word_system := some wake_word_system,
                  wake_word := dictSetdefault s.wake_word "snowboy" "snowboy" },
         r.2, true, ["snowboy installed successfully"], []⟩
      else
        ⟨s, r.2, false,
         ["An error occurred while installing snowboy. See local/installer.log for details."],
         [dir]⟩
    else
      ⟨{ s with wake_word_system := some wake_word_system,
                wake_word := dictSetdefault s.wake_word "snowboy" "snowboy" },
       [], true, [], []⟩
  else
    ⟨s, [], false, [], []⟩

/-- The `radiolist` prompt a `select_wake_word` branch shows: its text,
its `(value, label)` items and the pre-selected value. -/
structure RadioPrompt where
  text : String
  items : List (String × String)
  selected : Option String
deriving DecidableEq

/-- The openWakeWord wake-word choices offered by `select_wake_word`. -/
def owwWords : List (String × String) :=
  [("ok_nabu", "ok nabu"), ("hey_jarvis", "hey jarvis"), ("alexa", "alexa"),
   ("hey_mycroft", "hey mycroft"), ("community", "Community Wake Words")]

/-- The porcupine wake-word choices of the duplicated (dead) branch. -/
def porcupineWords : List (String × String) := [("porcupine", "porcupine")]

/-- The snowboy wake-word choices. -/
def snowboyWords : List (String × String) :=
  [("snowboy", "snowboy"), ("jarvis", "jarvis"), ("alexa", "alexa"),
   ("smart_mirror", "smart mirror"), ("view_glass", "view glass"),
   ("hey_extreme", "hey extreme"), ("neoya", "neoya"), ("subex", "subex")]

/-- `select_wake_word(settings)`.  `choice` is the decoded result of the
branch's `radiolist` round trip (`none` on cancel).  The if/elif chain is
reproduced verbatim: the second branch tests
`settings.wake_word_system == PORCUPINE1` but shows the openWakeWord list
and writes the `"openWakeWord"` dict key, and the third branch repeats the
exact same condition, so it can never run.  Returns the updated settings
(saved after every write) and the prompt that was shown, if any. -/
def select_wake_word (s : Settings) (choice : Option String) :
    Settings × Option RadioPrompt :=
  if s.wake_word_system = some "openWakeWord" then
    (match choice with
     | some w => { s with wake_word := dictSet s.wake_word "openWakeWord" w }
     | none => s,
     some ⟨"Wake Word:", owwWords, s.wake_word.lookup "openWakeWord"⟩)
  else if s.wake_word_system = some "porcupine1" then
    (match choice with
     | some w => { s with wake_word := dictSet s.wake_word "openWakeWord" w }
     | none => s,
     some ⟨"Wake Word:", owwWords, s.wake_word.lookup "openWakeWord"⟩)
  else if s.wake_word_system = some "porcupine1" then
    (match choice with
     | some w => { s with wake_word := dictSet s.wake_word "porcupine1" w }
     | none => s,
     some ⟨"Wake Word:", porcupineWords, s.wake_word.lookup "porcupine1"⟩)
  else if s.wake_word_system = some "snowboy" then
    (match choice with
     | some w => { s with wake_word := dictSet s.wake_word "snowboy" w }
     | none => s,
     some ⟨"Wake Word:", snowboyWords, s.wake_word.lookup "snowboy"⟩)
  else (s, none)

/-! Whiptail dialog layer and the positional choice codec
(`whiptail`, `menu`, `checklist`). -/

/-- An `ItemType` entry of a prompt: either a bare label used as both
value and label, or an explicit `(value, label)` pair. -/
inductive Item where
  | bare : String → Item
  | pair : String → String → Item
deriving DecidableEq

/-- The domain value of an item (`item` or `item[0]`). -/
def Item.value : Item → String
  | Item.bare s => s
  | Item.pair v _ => v

/-- The display label of an item (`item` or `item[1]`). -/
def Item.label : Item → String
  | Item.bare s => s
  | Item.pair _ l => l

/-- The decode table built by `menu`/`radiolist`/`checklist`: tag
`str(i)` maps to the item's domain value.  The Python code fills a dict
inside `for i, item in enumerate(items)`; the keys `str(i)` are fresh at
every iteration so the dict is exactly this association list.  `k` is the
enumeration start index (0 at the call site). -/
def itemMapFrom (k : ℕ) : List Item → List (String × String)
  | [] => []
  | it :: rest => (Nat.repr k, it.value) :: itemMapFrom (k + 1) rest

/-- The decode table, enumeration starting at 0. -/
def item_map (items : List Item) : List (String × String) :=
  itemMapFrom 0 items

/-- The `item_args` list handed to whiptail by `menu`: tag then label for
each item, tags being stringified zero-based positions. -/
def itemArgsFrom (k : ℕ) : List Item → List String
  | [] => []
  | it :: rest => Nat.repr k :: it.label :: itemArgsFrom (k + 1) rest

/-- Encoded whiptail arguments, enumeration starting at 0. -/
def item_args (items : List Item) : List String :=
  itemArgsFrom 0 items

/-- `whiptail(*args)`: a non-zero exit code (user cancel) becomes an
absent result, otherwise the tool's stderr payload is returned. -/
def whiptail (exitCode : Int) (stderrText : String) : Option String :=
  if exitCode ≠ 0 then none else some stderrText

/-- Decode of `menu`: `item_map.get(result)` — absent on cancel and on a
tag outside the table. -/
def menu_decode (items : List Item) (result : Option String) : Option String :=
  match result with
  | none => none
  | some r => (item_map items).lookup r

/-- Accumulating splitter over the character list: `acc` holds the
current token's characters in reverse. -/
def splitWSAux : List Char → List Char → List String
  | [], acc => if acc = [] then [] else [String.mk acc.reverse]
  | c :: cs, acc =>
    if c = ' ' then
      if acc = [] then splitWSAux cs []
      else String.mk acc.reverse :: splitWSAux cs []
    else splitWSAux cs (c :: acc)

/-- `shlex.split` restricted to what whiptail's checklist emits: the
checked tags, space separated, with no quoting (tags are decimal digit
strings).  The empty payload splits to the empty list. -/
def shlexSplit (s : String) : List String :=
  splitWSAux s.data []

/-- Decode of `checklist`: absent on cancel, otherwise each
whitespace-delimited tag is mapped through the table
(`item_map.get(tag, tag)`, identity passthrough on unknown tags). -/
def checklist_decode (items : List Item) (result : Option String) : Option (List String) :=
  match result with
  | none => none
  | some r => some ((shlexSplit r).map fun t => ((item_map items).lookup t).getD t)

/-- The whole `checklist` round trip, given the whiptail process's exit
code and stderr payload. -/
def checklist (items : List Item) (exitCode : Int) (stderrText : String) :
    Option (List String) :=
  checklist_decode items (whiptail exitCode stderrText)

/-! Service generation (`generate_services`). -/

/-- A character `shlex.quote` leaves unquoted: word characters plus the
punctuation set at-sign, percent, plus, equals, colon, comma, dot, slash
and dash (Python's `_find_unsafe` class, ASCII range). -/
def shlexSafeChar (c : Char) : Bool :=
  c.isAlphanum || c = '@' || c = '%' || c = '+' || c = '=' || c = ':' ||
    c = ',' || c = '.' || c = '/' || c = '-' || c = '_'

/-- `shlex.quote`: empty strings and strings with unsafe characters are
wrapped in single quotes, embedded single quotes escaped. -/
def shlexQuote (s : String) : String :=
  if s = "" then "\x27\x27"
  else if s.all shlexSafeChar then s
  else "\x27" ++ s.replace "\x27" "\x27\"\x27\"\x27" ++ "\x27"

/-- `shlex.join`: quote each argument, join with single spaces. -/
def shlexJoin (args : List String) : String :=
  String.intercalate " " (args.map shlexQuote)

/-- Effects of one `generate_services` call: resulting settings, msgbox
texts, directories created, files written (path and lines) and whether
`settings.save` ran. -/
structure GenResult where
  settings : Settings
  msgs : List String
  dirsCreated : List String
  files : List (String × List String)
  saved : Bool
deriving DecidableEq

/-- `generate_services(settings)`.  With no microphone configured it
shows a message box and returns before touching anything; otherwise it
creates the services directory and writes the systemd unit for the
satellite run command (with `--vad` appended for the VAD satellite type).
`programDir`, `user` and `group` abstract `_PROGRAM_DIR` and the
`id --name` lookups.  The function never mutates or saves settings. -/
def generate_services (programDir user group : String) (s : Settings) : GenResult :=
  match s.microphone_device with
  | none => ⟨s, ["Please configure microphone"], [], [], false⟩
  | some mic =>
    let satellite_command :=
      [programDir ++ "/script/run", "--name", s.satellite_name,
       "--uri", "tcp://0.0.0.0:10700",
       "--mic-command",
       "arecord -D " ++ mic ++ " -q -r 16000 -c 1 -f S16_LE -t raw"] ++
      (if s.satellite_type = "vad" then ["--vad"] else [])
    ⟨s, ["Services generated"], ["local/services"],
     [("local/services/wyoming-satellite.service",
       ["[Unit]", "Description=Wyoming Satellite", "Wants=network-online.target",
        "After=network-online.target", "",
        "[Service]", "Type=simple", "User=" ++ user, "Group=" ++ group,
        "ExecStart=" ++ shlexJoin satellite_command,
        "WorkingDirectory=" ++ programDir, "Restart=always", "RestartSec=1", "",
        "[Install]", "WantedBy=default.target"])],
     false⟩

/-- Decimal digits of `n`, most significant first, as printed by
`Nat.repr` (`0` prints as the single digit `0`).  Used to reason about
the positional tags `str(i)` of the choice codec. -/
def repDigits (n : ℕ) : List ℕ :=
  if n = 0 then [0] else (Nat.digits 10 n).reverse

/-! Concrete sample data used by the witness theorems. -/

/-- A sample execution environment: every command succeeds except `["b"]`,
which exits 1. -/
def execDemo : ExecEnv :=
  fun command _ => if command = ["b"] then CmdOutcome.exited 1 "" else CmdOutcome.exited 0 ""

/-- A sample directory oracle: nothing exists yet. -/
def dirExistsDemo : String → Bool := fun _ => false

/-- Sample prompt items with duplicate labels (tags stay positional). -/
def itemsDemo : List Item := [Item.pair "a" "dup", Item.pair "b" "dup"]

/-- Sample settings whose stored wake-word system is porcupine1. -/
def settingsPorcupineDemo : Settings := { wake_word_system := some "porcupine1" }

/-! Helper lemmas.  First: `Nat.repr` (Python `str(i)`) is injective, so
the positional tags of the choice codec never collide. -/

theorem toDigitsCore_eq_repDigits :
    ∀ (f n : ℕ) (acc : List Char), n < f →
      Nat.toDigitsCore 10 f n acc = (repDigits n).map Nat.digitChar ++ acc := by
  intro f
  induction f with
  | zero => exact fun n acc h => absurd h (Nat.not_lt_zero n)
  | succ f ih =>
    intro n acc h
    by_cases hdiv : n / 10 = 0
    · have hn10 : n < 10 := by omega
      by_cases hn : n = 0
      · subst hn
        simp [Nat.toDigitsCore, repDigits]
      · have hdig : Nat.digits 10 n = [n] := Nat.digits_of_lt 10 n hn hn10
        simp [Nat.toDigitsCore, hdiv, repDigits, hn, hdig, Nat.mod_eq_of_lt hn10]
    · have hn : n ≠ 0 := by omega
      have hlt : n / 10 < f := by
        have h1 : n / 10 < n := Nat.div_lt_self (Nat.pos_of_ne_zero hn) (by norm_num)
        omega
      have hdig : Nat.digits 10 n = n % 10 :: Nat.digits 10 (n / 10) :=
        Nat.digits_def' (by norm_num) (Nat.pos_of_ne_zero hn)
      simp only [Nat.toDigitsCore, hdiv, if_neg hdiv]
      rw [ih (n / 10) (Nat.digitChar (n % 10) :: acc) hlt]
      simp [repDigits, if_neg hn, if_neg hdiv, hdig, List.reverse_cons,
        List.map_append, List.map_cons, List.map_nil, List.append_assoc,
        List.nil_append, List.cons_append]

theorem repr_eq_repDigits (n : ℕ) :
    Nat.repr n = ((repDigits n).map Nat.digitChar).asString := by
  show (Nat.toDigits 10 n).asString = _
  rw [Nat.toDigits, toDigitsCore_eq_repDigits (n + 1) n [] (Nat.lt_succ_self n),
    List.append_nil]

theorem digitChar_inj_lt : ∀ a < 10, ∀ b < 10,
    Nat.digitChar a = Nat.digitChar b → a = b := by decide

theorem map_digitChar_inj :
    ∀ l1 l2 : List ℕ, (∀ d ∈ l1, d < 10) → (∀ d ∈ l2, d < 10) →
      l1.map Nat.digitChar = l2.map Nat.digitChar → l1 = l2 := by
  intro l1
  induction l1 with
  | nil =>
    intro l2 _ _ h
    cases l2 with
    | nil => rfl
    | cons b t => simp at h
  | cons a t ih =>
    intro l2 h1 h2 h
    cases l2 with
    | nil => simp at h
    | cons b t2 =>
      simp only [List.map_cons, List.cons.injEq] at h
      have hab : a = b :=
        digitChar_inj_lt a (h1 a (by simp)) b (h2 b (by simp)) h.1
      subst hab
      rw [ih t2 (fun d hd => h1 d (by simp [hd])) (fun d hd => h2 d (by simp [hd])) h.2]

theorem repDigits_lt (n : ℕ) : ∀ d ∈ repDigits n, d < 10 := by
  intro d hd
  unfold repDigits at hd
  by_cases hn : n = 0
  · rw [if_pos hn] at hd
    simp at hd
    omega
  · rw [if_neg hn, List.mem_reverse] at hd
    exact Nat.digits_lt_base (by norm_num) hd

theorem repDigits_inj : ∀ m n : ℕ, repDigits m = repDigits n → m = n := by
  have key : ∀ n : ℕ, n ≠ 0 → Nat.digits 10 n = [0] → False := by
    intro n hn hd
    have hofd := Nat.ofDigits_digits 10 n
    rw [hd] at hofd
    simp [Nat.ofDigits] at hofd
    exact hn hofd.symm
  intro m n h
  unfold repDigits at h
  by_cases hm : m = 0 <;> by_cases hn : n = 0
  · omega
  · rw [if_pos hm, if_neg hn] at h
    have hd : Nat.digits 10 n = [0] := by
      have := congrArg List.reverse h
      simpa using this.symm
    exact (key n hn hd).elim
  · rw [if_neg hm, if_pos hn] at h
    have hd : Nat.digits 10 m = [0] := by
      have := congrArg List.reverse h
      simpa using this
    exact (key m hm hd).elim
  · rw [if_neg hm, if_neg hn] at h
    have hd : Nat.digits 10 m = Nat.digits 10 n := by
      have := congrArg List.reverse h
      simpa using this
    have h1 := Nat.ofDigits_digits 10 m
    rw [hd, Nat.ofDigits_digits 10 n] at h1
    exact h1.symm

theorem repr_injective : Function.Injective Nat.repr := by
  intro m n h
  rw [repr_eq_repDigits, repr_eq_repDigits] at h
  have hdata : (repDigits m).map Nat.digitChar = (repDigits n).map Nat.digitChar := by
    have := congrArg String.data h
    simpa [List.asString] using this
  exact repDigits_inj m n
    (map_digitChar_inj _ _ (repDigits_lt m) (repDigits_lt n) hdata)

theorem itemMapFrom_lookup :
    ∀ (items : List Item) (k i : ℕ) (it : Item), items.get? i = some it →
      (itemMapFrom k items).lookup (Nat.repr (k + i)) = some it.value := by
  intro items
  induction items with
  | nil => intro k i it h; simp at h
  | cons x rest ih =>
    intro k i it h
    cases i with
    | zero =>
      have hx : x = it := by simpa using h
      subst hx
      simp [itemMapFrom, List.lookup]
    | succ i =>
      have hne : (Nat.repr (k + (i + 1)) == Nat.repr k) = false := by
        rw [beq_eq_false_iff_ne]
        intro hc
        have := repr_injective hc
        omega
      have hrec := ih (k + 1) i it (by simpa using h)
      have harith : k + 1 + i = k + (i + 1) := by omega
      rw [harith] at hrec
      simp [itemMapFrom, List.lookup, hne, hrec]

theorem itemArgsFrom_get :
    ∀ (items : List Item) (k i : ℕ) (it : Item), items.get? i = some it →
      (itemArgsFrom k items).get? (2 * i) = some (Nat.repr (k + i)) := by
  intro items
  induction items with
  | nil => intro k i it h; simp at h
  | cons x rest ih =>
    intro k i it h
    cases i with
    | zero => simp [itemArgsFrom]
    | succ i =>
      have hrec := ih (k + 1) i it (by simpa using h)
      have harith : k + 1 + i = k + (i + 1) := by omega
      rw [harith] at hrec
      have hidx : 2 * (i + 1) = 2 * i + 1 + 1 := by omega
      rw [hidx]
      simpa [itemArgsFrom] using hrec

theorem lookup_dictSet_ne (l : List (String × String)) (k k' v : String)
    (h : k ≠ k') : (dictSet l k' v).lookup k = l.lookup k := by
  induction l with
  | nil => simp [dictSet, List.lookup, beq_eq_false_iff_ne.mpr h]
  | cons p rest ih =>
    obtain ⟨k0, v0⟩ := p
    by_cases hk0 : k0 = k'
    · subst hk0
      simp only [dictSet, if_pos rfl]
      simp [List.lookup, beq_eq_false_iff_ne.mpr h]
    · simp only [dictSet, if_neg hk0]
      by_cases hk : k = k0
      · subst hk
        simp [List.lookup]
      · simp [List.lookup, beq_eq_false_iff_ne.mpr hk, ih]

/-! Device-probe selection lemmas. -/

theorem detectLoop_some_ne_none (thr : ℚ) :
    ∀ (l : List (String × ℚ)) (x : String × ℚ), detectLoop thr l (some x) ≠ none := by
  intro l
  induction l with
  | nil => intro x h; exact Option.noConfusion h
  | cons p rest ih =>
    intro x
    obtain ⟨d, r⟩ := p
    obtain ⟨bd, br⟩ := x
    by_cases hr : r < thr
    · simpa [detectLoop, hr] using ih (bd, br)
    · by_cases hb : br < r
      · simpa [detectLoop, hr, hb] using ih (d, r)
      · simpa [detectLoop, hr, hb] using ih (bd, br)

theorem detectLoop_none_iff (thr : ℚ) :
    ∀ l : List (String × ℚ), detectLoop thr l none = none ↔ ∀ p ∈ l, p.2 < thr := by
  intro l
  induction l with
  | nil => simp [detectLoop]
  | cons p rest ih =>
    obtain ⟨d, r⟩ := p
    by_cases hr : r < thr
    · simp [detectLoop, hr, ih]
    · simp only [detectLoop, if_neg hr]
      constructor
      · intro h
        exact absurd h (detectLoop_some_ne_none thr rest (d, r))
      · intro h
        exact absurd (h (d, r) (by simp)) hr

/-- Invariant of the selection loop: the returned winner either is the
incoming accumulator and nothing later strictly beats it, or it sits in
the list with every earlier qualifying score strictly below it, every
later qualifying score at most it, and it strictly beats the incoming
accumulator. -/
theorem detectLoop_spec (thr : ℚ) :
    ∀ (l : List (String × ℚ)) (b : Option (String × ℚ)) (d : String) (r : ℚ),
      detectLoop thr l b = some (d, r) →
      (b = some (d, r) ∧ ∀ p ∈ l, p.2 < thr ∨ p.2 ≤ r) ∨
      (thr ≤ r ∧
        ∃ pre post, l = pre ++ (d, r) :: post ∧
          (∀ p ∈ pre, p.2 < thr ∨ p.2 < r) ∧
          (∀ p ∈ post, p.2 < thr ∨ p.2 ≤ r) ∧
          ∀ x, b = some x → x.2 < r) := by
  intro l
  induction l with
  | nil =>
    intro b d r h
    exact Or.inl ⟨h, by simp⟩
  | cons q rest ih =>
    intro b d r h
    obtain ⟨d0, r0⟩ := q
    by_cases hr0 : r0 < thr
    · simp only [detectLoop, if_pos hr0] at h
      rcases ih b d r h with ⟨hb, hall⟩ | ⟨hthr, pre, post, heq, hpre, hpost, hbb⟩
      · refine Or.inl ⟨hb, ?_⟩
        intro p hp
        rcases List.mem_cons.mp hp with hp0 | hp1
        · subst hp0; exact Or.inl hr0
        · exact hall p hp1
      · refine Or.inr ⟨hthr, (d0, r0) :: pre, post, by rw [heq]; rfl, ?_, hpost, hbb⟩
        intro p hp
        rcases List.mem_cons.mp hp with hp0 | hp1
        · subst hp0; exact Or.inl hr0
        · exact hpre p hp1
    · have hthr0 : thr ≤ r0 := le_of_not_lt hr0
      cases b with
      | none =>
        simp only [detectLoop, if_neg hr0] at h
        rcases ih (some (d0, r0)) d r h with ⟨hb, hall⟩ |
          ⟨hthr, pre, post, heq, hpre, hpost, hbb⟩
        · have hinj := Option.some.inj hb
          have hd1 : d0 = d := congrArg Prod.fst hinj
          have hd2 : r0 = r := congrArg Prod.snd hinj
          subst hd1; subst hd2
          exact Or.inr ⟨hthr0, [], rest, rfl, by simp, hall,
            fun x hx => Option.noConfusion hx⟩
        · have hr0r : r0 < r := hbb (d0, r0) rfl
          refine Or.inr ⟨hthr, (d0, r0) :: pre, post, by rw [heq]; rfl, ?_, hpost,
            fun x hx => Option.noConfusion hx⟩
          intro p hp
          rcases List.mem_cons.mp hp with hp0 | hp1
          · subst hp0; exact Or.inr hr0r
          · exact hpre p hp1
      | some x =>
        obtain ⟨bd, br⟩ := x
        by_cases hbr : br < r0
        · simp only [detectLoop, if_neg hr0, if_pos hbr] at h
          rcases ih (some (d0, r0)) d r h with ⟨hb, hall⟩ |
            ⟨hthr, pre, post, heq, hpre, hpost, hbb⟩
          · have hinj := Option.some.inj hb
            have hd1 : d0 = d := congrArg Prod.fst hinj
            have hd2 : r0 = r := congrArg Prod.snd hinj
            subst hd1; subst hd2
            refine Or.inr ⟨hthr0, [], rest, rfl, by simp, hall, ?_⟩
            intro x hx
            rw [← Option.some.inj hx]
            exact hbr
          · have hr0r : r0 < r := hbb (d0, r0) rfl
            refine Or.inr ⟨hthr, (d0, r0) :: pre, post, by rw [heq]; rfl, ?_, hpost, ?_⟩
            · intro p hp
              rcases List.mem_cons.mp hp with hp0 | hp1
              · subst hp0; exact Or.inr hr0r
              · exact hpre p hp1
            · intro x hx
              rw [← Option.some.inj hx]
              exact lt_trans hbr hr0r
        · simp only [detectLoop, if_neg hr0, if_neg hbr] at h
          rcases ih (some (bd, br)) d r h with ⟨hb, hall⟩ |
            ⟨hthr, pre, post, heq, hpre, hpost, hbb⟩
          · refine Or.inl ⟨hb, ?_⟩
            have hbrr : br = r := congrArg Prod.snd (Option.some.inj hb)
            intro p hp
            rcases List.mem_cons.mp hp with hp0 | hp1
            · subst hp0
              exact Or.inr (hbrr ▸ le_of_not_lt hbr)
            · exact hall p hp1
          · have hbrr : br < r := hbb (bd, br) rfl
            refine Or.inr ⟨hthr, (d0, r0) :: pre, post, by rw [heq]; rfl, ?_, hpost, ?_⟩
            · intro p hp
              rcases List.mem_cons.mp hp with hp0 | hp1
              · subst hp0
                exact Or.inr (lt_of_le_of_lt (le_of_not_lt hbr) hbrr)
              · exact hpre p hp1
            · intro x hx
              rw [← Option.some.inj hx]
              exact hbrr

/-! Claim theorems. -/

/-- C1: `run_with_gauge` executes the given commands strictly in their
list order, one at a time.  If every command succeeds the result is
success with all commands started; if some command fails after a prefix
of successes, the overall result is failure and exactly that prefix plus
the failing command were started — every later command (in particular the
third of three when the second fails) never starts. -/
theorem run_with_gauge_order (ex : ExecEnv) (pw : Option String) :
    (∀ commands, (∀ c ∈ commands, run_command ex c pw = true) →
      run_with_gauge ex pw commands = (true, commands)) ∧
    (∀ pre c rest, (∀ p ∈ pre, run_command ex p pw = true) →
      run_command ex c pw = false →
      run_with_gauge ex pw (pre ++ c :: rest) = (false, pre ++ [c])) := by
  have hsucc : ∀ commands, (∀ c ∈ commands, run_command ex c pw = true) →
      run_with_gauge ex pw commands = (true, commands) := by
    intro commands h
    induction commands with
    | nil => rfl
    | cons a l ih =>
      have ha : run_command ex a pw = true := h a (by simp)
      have hl := ih fun c hc => h c (by simp [hc])
      simp [run_with_gauge, ha, hl]
  refine ⟨hsucc, ?_⟩
  intro pre c rest hpre hc
  induction pre with
  | nil => simp [run_with_gauge, hc]
  | cons a l ih =>
    have ha : run_command ex a pw = true := hpre a (by simp)
    have hl := ih fun p hp => hpre p (by simp [hp])
    simp [run_with_gauge, ha, hl]

/-- Witness for C1: three commands where the second fails — the third is
never started and the failure identifies the second command. -/
theorem run_with_gauge_order_witness :
    run_with_gauge execDemo none [["a"], ["b"], ["c"]] = (false, [["a"], ["b"]]) :=
  (run_with_gauge_order execDemo none).2 [["a"]] ["b"] [["c"]] (by decide) (by decide)

/-- C2: the device probe selects, among the results in original candidate
order, the first candidate whose score meets the threshold and strictly
exceeds every earlier qualifying score, with every later qualifying score
at most it (so exact ties of the maximum go to the earlier candidate);
it reports nothing exactly when no candidate's score meets the
threshold. -/
theorem detect_best_selection (results : List (String × ℚ)) (thr : ℚ) :
    (detect_best_with thr results = none ↔ ∀ p ∈ results, p.2 < thr) ∧
    (∀ d r, detect_best_with thr results = some (d, r) →
      thr ≤ r ∧
        ∃ pre post, results = pre ++ (d, r) :: post ∧
          (∀ p ∈ pre, p.2 < thr ∨ p.2 < r) ∧
          (∀ p ∈ post, p.2 < thr ∨ p.2 ≤ r)) := by
  refine ⟨detectLoop_none_iff thr results, ?_⟩
  intro d r h
  rcases detectLoop_spec thr results none d r h with ⟨hb, _⟩ |
    ⟨hthr, pre, post, heq, hpre, hpost, _⟩
  · exact Option.noConfusion hb
  · exact ⟨hthr, pre, post, heq, hpre, hpost⟩

/-- Witness for C2: over scores `[50, 50]` with threshold 40 the probe
picks the first candidate (strict-greater tie-break). -/
theorem detect_best_selection_witness :
    (40 : ℚ) ≤ 50 ∧
      ∃ pre post,
        [("a", (50 : ℚ)), ("b", 50)] = pre ++ ("a", (50 : ℚ)) :: post ∧
          (∀ p ∈ pre, p.2 < 40 ∨ p.2 < 50) ∧
          (∀ p ∈ post, p.2 < 40 ∨ p.2 ≤ 50) :=
  (detect_best_selection [("a", 50), ("b", 50)] 40).2 "a" 50 (by decide)

/-- C4: a single device's probe task is total: a failed capture or an
empty capture (whose mean would divide by zero) scores 0 rather than
raising, and a non-zero score arises only from a successful non-empty
capture, where it equals `sqrt(mean(sample^2))`. -/
theorem record_proc_error_handling (o : Except Unit (List ℤ)) :
    (∀ e, o = Except.error e → record_proc o = 0) ∧
    (o = Except.ok [] → record_proc o = 0) ∧
    (record_proc o ≠ 0 →
      ∃ samples, o = Except.ok samples ∧ samples ≠ [] ∧
        record_proc o =
          Real.sqrt ((1 : ℝ) / (samples.length : ℝ) * ((sumSquares samples : ℤ) : ℝ))) := by
  cases o with
  | error e =>
    exact ⟨fun _ _ => rfl, fun h => Except.noConfusion h, fun h => absurd rfl h⟩
  | ok samples =>
    refine ⟨fun e h => Except.noConfusion h, fun h => ?_, fun h => ?_⟩
    · have hs : samples = [] := Except.ok.inj h
      subst hs
      rfl
    · by_cases hs : samples = []
      · subst hs
        exact absurd rfl h
      · refine ⟨samples, rfl, hs, ?_⟩
        have hlen : samples.length ≠ 0 := by simpa [List.length_eq_zero] using hs
        simp [record_proc, hlen]

/-- Witness for C4: the capture `[1]` yields the non-zero score
`sqrt(mean(sample^2)) = 1`. -/
theorem record_proc_error_handling_witness :
    ∃ samples, (Except.ok [(1 : ℤ)] : Except Unit (List ℤ)) = Except.ok samples ∧
      samples ≠ [] ∧
      record_proc (Except.ok [(1 : ℤ)]) =
        Real.sqrt ((1 : ℝ) / (samples.length : ℝ) *
          ((sumSquares samples : ℤ) : ℝ)) :=
  (record_proc_error_handling (Except.ok [1])).2.2
    (by norm_num [record_proc, sumSquares, Real.sqrt_one])

/-- C5: settings persistence round-trip — saving then loading reproduces
every field exactly, including a wake-word mapping with entries keyed by
engines other than the selected one (the mapping is stored verbatim, so
stale entries survive). -/
theorem settings_roundtrip (s : Settings) :
    Settings.load (Settings.save s) = some s := by
  obtain ⟨mic, snd, fb, wws, ww, name, typ⟩ := s
  cases mic <;> cases snd <;> cases wws <;> rfl

/-- C3: choice-codec round trip — for every item list, the tag handed to
the prompting tool at position `i` is `str(i)`, decoding that tag through
the built table returns the domain value at position `i` (even with
duplicate labels or values, since tags are positional), and for
multi-select the whitespace-delimited tag list decodes position-wise to
the original domain values. -/
theorem choice_codec_roundtrip (items : List Item) :
    (∀ i it, items.get? i = some it →
      (item_args items).get? (2 * i) = some (Nat.repr i) ∧
      menu_decode items (some (Nat.repr i)) = some it.value) ∧
    (∀ (raw : String) (idxs : List ℕ), shlexSplit raw = idxs.map Nat.repr →
      (∀ i ∈ idxs, i < items.length) →
      checklist_decode items (some raw) =
        some (idxs.map fun i => ((items.get? i).map Item.value).getD "")) := by
  constructor
  · intro i it h
    constructor
    · have ha := itemArgsFrom_get items 0 i it h
      rw [Nat.zero_add] at ha
      exact ha
    · have hm := itemMapFrom_lookup items 0 i it h
      rw [Nat.zero_add] at hm
      exact hm
  · intro raw idxs hsplit hbound
    have hpt : ∀ i ∈ idxs,
        ((item_map items).lookup (Nat.repr i)).getD (Nat.repr i) =
          ((items.get? i).map Item.value).getD "" := by
      intro i hi
      have hlen := hbound i hi
      have hget : items.get? i = some (items.get ⟨i, hlen⟩) := List.get?_eq_get hlen
      have hlook := itemMapFrom_lookup items 0 i (items.get ⟨i, hlen⟩) hget
      rw [Nat.zero_add] at hlook
      rw [hget]
      show ((itemMapFrom 0 items).lookup (Nat.repr i)).getD (Nat.repr i) = _
      rw [hlook]
      rfl
    show some ((shlexSplit raw).map fun t => ((item_map items).lookup t).getD t) = _
    rw [hsplit, List.map_map]
    congr 1
    exact List.map_congr_left hpt

/-- Witness for C3: two items with the same label still decode by
position — tag `str(1)` returns the second item's value. -/
theorem choice_codec_roundtrip_witness :
    (item_args itemsDemo).get? (2 * 1) = some (Nat.repr 1) ∧
      menu_decode itemsDemo (some (Nat.repr 1)) = some "b" :=
  (choice_codec_roundtrip itemsDemo).1 1 (Item.pair "b" "dup") (by decide)

/-- C6: with no microphone configured, `generate_services` only shows a
message dialog and changes nothing — settings are not mutated or saved
and no directory or file is touched. -/
theorem generate_services_precondition (programDir user group : String)
    (s : Settings) (h : s.microphone_device = none) :
    generate_services programDir user group s =
      ⟨s, ["Please configure microphone"], [], [], false⟩ := by
  simp [generate_services, h]

/-- Witness for C6: default settings have no microphone configured. -/
theorem generate_services_precondition_witness :
    generate_services "/opt/wyoming-satellite" "pi" "pi" {} =
      ⟨{}, ["Please configure microphone"], [], [], false⟩ :=
  generate_services_precondition "/opt/wyoming-satellite" "pi" "pi" {} rfl

/-- C7: the checklist returns an absent result exactly when the prompting
tool exits non-zero (cancel), and a present empty list when the tool
exits zero with nothing checked — the two outcomes are distinct values. -/
theorem checklist_cancel_vs_empty (items : List Item) (ec : Int) (err : String) :
    (checklist items ec err = none ↔ ec ≠ 0) ∧
    (ec = 0 → err = "" → checklist items ec err = some []) := by
  constructor
  · by_cases hec : ec = 0
    · simp [checklist, whiptail, checklist_decode, hec]
    · simp [checklist, whiptail, checklist_decode, hec]
  · intro h1 h2
    subst h1
    subst h2
    rfl

/-- Witness for C7: cancelling (exit code 1) yields the absent result. -/
theorem checklist_cancel_vs_empty_witness :
    checklist itemsDemo 1 "" = none :=
  (checklist_cancel_vs_empty itemsDemo 1 "").1.mpr (by decide)

/-- C8: the secret is piped to a command's stdin exactly when the
command's first argument is the elevation token `"sudo"` and a secret was
supplied, and whatever is piped is that secret; every other command gets
nothing before stdin is closed. -/
theorem run_command_secret (command : List String) (pw : Option String) :
    ((procInput command pw).isSome ↔ command.head? = some "sudo" ∧ pw.isSome) ∧
    (∀ s, procInput command pw = some s → pw = some s) := by
  unfold procInput
  by_cases h : command.head? = some "sudo" ∧ pw ≠ none
  · rw [if_pos h]
    refine ⟨?_, fun s hs => hs⟩
    simp [h.1, Option.isSome_iff_ne_none]
  · rw [if_neg h]
    refine ⟨⟨fun hx => absurd hx (by simp), fun hc => ?_⟩,
      fun s hs => Option.noConfusion hs⟩
    exact absurd ⟨hc.1, Option.isSome_iff_ne_none.mp hc.2⟩ h

/-- Witness for C8: a sudo command with a supplied secret receives input. -/
theorem run_command_secret_witness :
    (procInput ["sudo", "-S", "cp"] (some "hunter2")).isSome :=
  (run_command_secret ["sudo", "-S", "cp"] (some "hunter2")).1.mpr (by decide)

/-- C9: requesting a snowboy install while the *stored* wake-word system
is not snowboy hits no branch of `install_wake_word` (the snowboy
dispatch tests the stored system, not the requested one): no command
runs, nothing is saved or shown, and the settings are unchanged. -/
theorem install_wake_word_snowboy_frame (dirExists : String → Bool) (ex : ExecEnv)
    (s : Settings) (h : s.wake_word_system ≠ some "snowboy") :
    install_wake_word dirExists ex s "snowboy" = ⟨s, [], false, [], []⟩ := by
  unfold install_wake_word
  rw [if_neg (by decide), if_neg (by decide), if_neg h]

/-- Witness for C9: default settings (no stored system) with a snowboy
request are returned untouched. -/
theorem install_wake_word_snowboy_frame_witness :
    install_wake_word dirExistsDemo execDemo {} "snowboy" =
      ⟨{}, [], false, [], []⟩ :=
  install_wake_word_snowboy_frame dirExistsDemo execDemo {} (by decide)

/-- C10: with the stored system porcupine1, `select_wake_word` shows the
openWakeWord choices (pre-selecting from the openWakeWord mapping entry)
and a present selection is written to the `"openWakeWord"` key; moreover
no reachable branch of `select_wake_word` ever writes the `"porcupine1"`
key (its dedicated branch repeats an earlier condition and is dead). -/
theorem select_wake_word_porcupine1 (s : Settings) (choice : Option String)
    (h : s.wake_word_system = some "porcupine1") :
    (select_wake_word s choice).2 =
      some ⟨"Wake Word:", owwWords, s.wake_word.lookup "openWakeWord"⟩ ∧
    (∀ w, choice = some w →
      (select_wake_word s choice).1.wake_word = dictSet s.wake_word "openWakeWord" w) ∧
    (∀ t u, ((select_wake_word t u).1.wake_word.lookup "porcupine1") =
      t.wake_word.lookup "porcupine1") := by
  have hne : s.wake_word_system ≠ some "openWakeWord" := by
    rw [h]
    decide
  refine ⟨?_, ?_, ?_⟩
  · unfold select_wake_word
    rw [if_neg hne, if_pos h]
  · intro w hw
    subst hw
    unfold select_wake_word
    rw [if_neg hne, if_pos h]
  · intro t u
    unfold select_wake_word
    by_cases h1 : t.wake_word_system = some "openWakeWord"
    · rw [if_pos h1]
      cases u with
      | none => rfl
      | some w => exact lookup_dictSet_ne t.wake_word "porcupine1" "openWakeWord" w (by decide)
    · rw [if_neg h1]
      by_cases h2 : t.wake_word_system = some "porcupine1"
      · rw [if_pos h2]
        cases u with
        | none => rfl
        | some w => exact lookup_dictSet_ne t.wake_word "porcupine1" "openWakeWord" w (by decide)
      · rw [if_neg h2, if_neg h2]
        by_cases h3 : t.wake_word_system = some "snowboy"
        · rw [if_pos h3]
          cases u with
          | none => rfl
          | some w => exact lookup_dictSet_ne t.wake_word "porcupine1" "snowboy" w (by decide)
        · rw [if_neg h3]

/-- Witness for C10: with stored porcupine1 the openWakeWord prompt is
shown. -/
theorem select_wake_word_porcupine1_witness :
    (select_wake_word settingsPorcupineDemo (some "alexa")).2 =
      some ⟨"Wake Word:", owwWords,
        settingsPorcupineDemo.wake_word.lookup "openWakeWord"⟩ :=
  (select_wake_word_porcupine1 settingsPorcupineDemo (some "alexa") (by decide)).1

end Installer
